import Mathlib

/-!
Verification of the backtesting engine's core components against their
natural-language specification.

The development shallowly embeds the relevant Python sources:

* `src/engine/execution.py` — the leg execution engine (`execute_option_leg`);
* `src/engine/event_backtest_engine.py` — the safe candle lookup
  (`_safe_get_candle`) and the per-day event backtest loop
  (`run_event_backtest_v2`);
* `src/data/options_reader.py` — the partitioned option-data loader
  (`_load_expiry_data`, `load_option_data`);
* `src/analytics/minute_pnl_tracker.py` — the minute PnL tracker's `record`.

Prices are modelled as rationals (the Python code uses floats; all claims
under examination are about control flow and exact arithmetic identities,
not float rounding).  Times of day are modelled as minutes since midnight
(`Nat`); the engine operates on a single trading day, so a pandas
timestamp is represented by its time of day.  DataFrames indexed by time
become association lists `List (Nat × Candle)` in row order, and pandas
row filters become `List.filter`.  Python exceptions (`ValueError`,
`KeyError`) become `Except` errors.
-/

/- `Rat`'s arithmetic is `@[irreducible]` upstream, which blocks `decide`
on concrete runs of the executable embedding; restore reducibility locally
so witnesses can be checked by evaluation. -/
attribute [local semireducible] Rat.add Rat.sub Rat.mul Rat.inv

namespace Backtest

/-- Option type: call (`"CE"`) or put (`"PE"`), as in the data files. -/
inductive OType
  | CE
  | PE
deriving DecidableEq, Repr

/-- One OHLC record, mirroring the `Open`/`High`/`Low`/`Close` columns of the
candle DataFrames.  (The optional `Volume` column is never read by the code
under verification and is omitted.) -/
structure Candle where
  Open : ℚ
  High : ℚ
  Low : ℚ
  Close : ℚ
deriving DecidableEq, Repr

/-- A time-indexed candle series: the rows of a DataFrame with a DateTime
index, as pairs (time of day in minutes, candle), in row order. -/
abbrev Series := List (Nat × Candle)

/-! ## `_safe_get_candle` (src/engine/event_backtest_engine.py, lines 19–74)

Only the `fallback="last"` mode is modelled: it is the only mode the engine
ever requests (every call site passes `fallback="last"`). -/

/-- Which fallback produced the approximate candle: the last candle at or
before the target time, or the last candle in the data. -/
inductive FallbackKind
  | lastBefore
  | lastAvail
deriving DecidableEq, Repr

/-- The content of the warning message `_safe_get_candle` formats
(f-string "Candle {target} not found, used {actual} (...)"): the requested
time, the actual time used, and which fallback applied. -/
structure SafeWarn where
  requested : Nat
  actual : Nat
  kind : FallbackKind
deriving DecidableEq, Repr

/-- `_safe_get_candle(opt_df, target_time, fallback="last")`: exact time
match first (no warning); else the last candle at or before the target
time; else the last candle in the data; `none` if the series is empty.
Returns (candle, actual time, optional warning). -/
def safe_get_candle (opt_df : Series) (target_time : Nat) :
    Option (Candle × Nat × Option SafeWarn) :=
  match (opt_df.filter (fun r => r.1 = target_time)).head? with
  | some r => some (r.2, target_time, none)
  | none =>
    match (opt_df.filter (fun r => r.1 ≤ target_time)).getLast? with
    | some r => some (r.2, r.1, some ⟨target_time, r.1, FallbackKind.lastBefore⟩)
    | none =>
      match opt_df.getLast? with
      | some r => some (r.2, r.1, some ⟨target_time, r.1, FallbackKind.lastAvail⟩)
      | none => none

/-! ## `execute_option_leg` (src/engine/execution.py, lines 14–136) -/

namespace Execution

/-- Exit reasons produced by `execute_option_leg` (the code's literal
strings are "SL_HIT" and "TIME_EXIT"). -/
inductive ExitReason
  | SL_HIT
  | TIME_EXIT
deriving DecidableEq, Repr

/-- The dictionary `execute_option_leg` returns.  (The `intended_entry_time`
echo field is omitted: it is the argument formatted back as a string.) -/
structure ExecResult where
  entry_time : Nat
  entry_price : ℚ
  entry_delayed : Bool
  entry_delay_minutes : Int
  exit_time : Nat
  exit_price : ℚ
  exit_reason : ExitReason
  sl_price : ℚ
  qty : Int
  pnl : ℚ
deriving DecidableEq, Repr

/-- Error messages raised by `execute_option_leg` (`ValueError`s). -/
inductive ExecError
  | emptyData
  | noEntryCandle
  | noExitCandle
deriving DecidableEq, Repr

/-- The stop-loss monitoring loop (`for ts, row in eligible.iterrows(): ...`,
lines 85–97): scan in row order, stop (`break`) at the first row strictly
after the exit time, return the first row for which the breach check holds. -/
def slScan (check : Candle → Bool) (exit_time : Nat) : Series → Option (Nat × Candle)
  | [] => none
  | r :: rest =>
    if exit_time < r.1 then none
    else if check r.2 then some r
    else slScan check exit_time rest

/-- `execute_option_leg(df, intended_entry_time, exit_time, sl_pct, qty)`.
Entry: first candle at/after the intended entry time, at its Open.
Stop loss: short (`qty < 0`) level `entry*(1+sl_pct)`, breach when
`High ≥ SL`, exit at High; long level `entry*(1-sl_pct)`, breach when
`Low ≤ SL`, exit at Low; scanned over the eligible candles up to the exit
time.  Otherwise time exit at the Close of the last eligible candle at or
before the exit time.  PnL `(exit - entry) * qty`. -/
def execute_option_leg (df : Series) (intended_entry_time exit_time : Nat)
    (sl_pct : ℚ) (qty : Int) : Except ExecError ExecResult :=
  if df.isEmpty then .error .emptyData
  else
    let eligible := df.filter (fun r => intended_entry_time ≤ r.1)
    match eligible.head? with
    | none => .error .noEntryCandle
    | some er =>
      let entry_price := er.2.Open
      let actual_entry_time := er.1
      let entry_delayed : Bool := actual_entry_time ≠ intended_entry_time
      let entry_delay_minutes : Int :=
        if entry_delayed then (actual_entry_time : Int) - (intended_entry_time : Int) else 0
      let sl_price : ℚ :=
        if qty < 0 then entry_price * (1 + sl_pct) else entry_price * (1 - sl_pct)
      let sl_check : Candle → Bool :=
        if qty < 0 then (fun row => sl_price ≤ row.High) else (fun row => row.Low ≤ sl_price)
      match slScan sl_check exit_time eligible with
      | some br =>
        let exit_price := if qty < 0 then br.2.High else br.2.Low
        .ok ⟨actual_entry_time, entry_price, entry_delayed, entry_delay_minutes,
             br.1, exit_price, .SL_HIT, sl_price, qty, (exit_price - entry_price) * qty⟩
      | none =>
        match (eligible.filter (fun r => r.1 ≤ exit_time)).getLast? with
        | none => .error .noExitCandle
        | some lr =>
          .ok ⟨actual_entry_time, entry_price, entry_delayed, entry_delay_minutes,
               lr.1, lr.2.Close, .TIME_EXIT, sl_price, qty, (lr.2.Close - entry_price) * qty⟩

end Execution

/-! ## `run_event_backtest_v2` (src/engine/event_backtest_engine.py, lines 77–469)

The engine is modelled for one trading day.  Constant per-run output
columns (DATE, INDEX, EXPIRYDATE, DAY, the strategy-specific annotation
passthroughs SL_INDEX/SL_BEFORE_ROUND/VOLATILITY/UPPER_RANGE/LOWER_RANGE/
RANGE_USED taken from `meta.get(...)`, and INDEX_ENTRY_PRICE) are omitted:
they are copied verbatim from the run configuration or the intent metadata
and are never read by the engine's control flow.  The optional minute PnL
tracker argument is `None` in the modelled runs (its `record` method is
modelled separately below).  `load_option_data` is modelled from the
engine's viewpoint as an abstract store of per-(strike, type) candle
series; the loader raises exactly when the requested series is empty
(src/data/options_reader.py line 162; its partition logic is modelled in
full in the `OptionsReader` namespace below). -/

namespace Engine

/-- The fixed core of an ENTER intent dict: `leg_id`, `strike`, `type`.
Strategy-specific metadata keys are annotation passthroughs (see above). -/
structure EnterIntent where
  leg_id : Nat
  strike : Int
  otype : OType
deriving DecidableEq, Repr

/-- A strategy intent: `{"action": "ENTER", ...}` or
`{"action": "EXIT", "leg_id": ..., "reason": ...}`. -/
inductive Intent
  | enter (e : EnterIntent)
  | exitLeg (leg_id : Nat) (reason : String)
deriving DecidableEq, Repr

/-- An entry of the open-leg book: the originating intent (`"meta"`), the
entry price and the actual entry time.  (The cached `opt_df` reference is
omitted: the engine reloads the series from the store at exit.) -/
structure OpenLeg where
  meta : EnterIntent
  entry_price : ℚ
  entry_time : Nat
deriving DecidableEq, Repr

/-- A trade-ledger row, restricted to the non-constant columns (see the
namespace comment). -/
structure Trade where
  entry_time : Nat
  entry_price : ℚ
  exit_time : Nat
  index_exit_price : Option ℚ
  exit_price : ℚ
  exit_reason : String
  strike : Int
  otype : OType
  qty : Int
  pnl : ℚ
deriving DecidableEq, Repr

/-- Which engine step produced a warning row (the `ACTION` column). -/
inductive WAction
  | PENDING_ENTRY
  | ENTRY
  | EXIT
  | EOD_EXIT
deriving DecidableEq, Repr

/-- The `WARNING` message of a warning row: a fallback-candle notice from
`_safe_get_candle`, "No candle for pending entry - skipped", or
"No EOD candle found - leg skipped". -/
inductive WMsg
  | fallbackUsed (kind : FallbackKind)
  | noCandlePendingSkip
  | noEodCandleSkip
deriving DecidableEq, Repr

/-- A warning row, restricted to the non-constant columns: ACTION, STRIKE,
TYPE, REQUESTED_TIME, ACTUAL_TIME (`none` models "N/A"), WARNING, and the
optional EXIT_REASON column. -/
structure Warning where
  action : WAction
  strike : Int
  otype : OType
  requested_time : Nat
  actual_time : Option Nat
  msg : WMsg
  exit_reason : Option String
deriving DecidableEq, Repr

/-- Errors that abort the day (uncaught Python exceptions inside
`run_event_backtest_v2`). -/
inductive EngineError
  | dataNotFound (strike : Int) (otype : OType)
  | noEntryCandle (strike : Int) (otype : OType) (t : Nat)
  | noExitCandle (strike : Int) (otype : OType) (t : Nat)
  | keyError (leg_id : Nat)
deriving DecidableEq, Repr

/-- The historical option store for the day: per (strike, type) the candle
series `load_option_data` would filter out of the expiry partition. -/
abbrev OptionStore := Int → OType → Series

/-- `load_option_data` from the engine's viewpoint: returns the (strike,
type) series, raising `ValueError` exactly when it is empty
(src/data/options_reader.py lines 157–166). -/
def loadLeg (store : OptionStore) (strike : Int) (otype : OType) :
    Except EngineError Series :=
  let s := store strike otype
  if s.isEmpty then .error (.dataNotFound strike otype) else .ok s

/-- A pluggable strategy (the external contract): entry/exit times and the
per-minute decision function `on_minute`, a state machine over `σ`.
(`on_day_start` is modelled by the initial state passed to the run.) -/
structure Strategy (σ : Type) where
  ENTRY_TIME : Nat
  EXIT_TIME : Nat
  on_minute : σ → Nat → ℚ → σ × List Intent

/-- The engine's mutable locals for one day: the strategy state, the
open-leg book (`open_legs = {}` — a Python dict in insertion order, so an
association list), the pending-entry queue, and the accumulated trades and
warnings. -/
structure DayState (σ : Type) where
  strat : σ
  open_legs : List (Nat × OpenLeg)
  pending_entries : List EnterIntent
  trades : List Trade
  warnings : List Warning
deriving Repr

/-- `open_legs[leg_id] = v` on a Python dict: replace in place if the key
exists, else append. -/
def dictUpsert (m : List (Nat × OpenLeg)) (k : Nat) (v : OpenLeg) :
    List (Nat × OpenLeg) :=
  if m.any (fun p => p.1 = k) then m.map (fun p => if p.1 = k then (k, v) else p)
  else m ++ [(k, v)]

/-- `open_legs[leg_id]` lookup (first binding of the key). -/
def dictGet? (m : List (Nat × OpenLeg)) (k : Nat) : Option OpenLeg :=
  (m.find? (fun p => p.1 = k)).map (fun p => p.2)

/-- The removal part of `open_legs.pop(leg_id)`. -/
def dictRemove (m : List (Nat × OpenLeg)) (k : Nat) : List (Nat × OpenLeg) :=
  m.filter (fun p => ¬ p.1 = k)

/-- Process one queued pending entry at the current minute (lines 147–191):
load the series, locate the candle with safe fallback — if none, record a
skip warning and `continue`; record a fallback warning if approximate; open
the leg at the candle's Open. -/
def resolvePending (store : OptionStore) (candle_time : Nat) (s : DayState σ)
    (e : EnterIntent) : Except EngineError (DayState σ) :=
  match loadLeg store e.strike e.otype with
  | .error err => .error err
  | .ok opt_df =>
    match safe_get_candle opt_df candle_time with
    | none =>
      .ok { s with warnings := s.warnings ++
              [(⟨.PENDING_ENTRY, e.strike, e.otype, candle_time, none,
                .noCandlePendingSkip, none⟩ : Warning)] }
    | some (candle, actual_time, warn) =>
      let s' :=
        match warn with
        | some sw => { s with warnings := s.warnings ++
                        [(⟨.PENDING_ENTRY, e.strike, e.otype, candle_time,
                          some actual_time, .fallbackUsed sw.kind, none⟩ : Warning)] }
        | none => s
      .ok { s' with open_legs :=
              dictUpsert s'.open_legs e.leg_id ⟨e, candle.Open, actual_time⟩ }

/-- The `for pending in pending_entries` loop followed by
`pending_entries.clear()` (lines 147–193). -/
def processPendings (store : OptionStore) (candle_time : Nat) :
    DayState σ → List EnterIntent → Except EngineError (DayState σ)
  | s, [] => .ok { s with pending_entries := [] }
  | s, e :: rest =>
    match resolvePending store candle_time s e with
    | .error err => .error err
    | .ok s' => processPendings store candle_time s' rest

/-- Process one strategy intent at minute `candle_time` with the current
index price (lines 198–337).  ENTER at the entry time fills immediately on
the located candle's Open (raising if no candle); ENTER at any other
minute is queued as a pending entry.  EXIT pops the leg (KeyError if
absent), locates the candle, warns if approximate, exits at its Close, and
appends a trade with `QTY = -1` and `PNL = (exit - entry) * -1`. -/
def processAction (store : OptionStore) (ENTRY_TIME candle_time : Nat)
    (index_price : ℚ) (s : DayState σ) : Intent → Except EngineError (DayState σ)
  | .enter e =>
    if candle_time = ENTRY_TIME then
      match loadLeg store e.strike e.otype with
      | .error err => .error err
      | .ok opt_df =>
        match safe_get_candle opt_df candle_time with
        | none => .error (.noEntryCandle e.strike e.otype candle_time)
        | some (candle, actual_time, warn) =>
          let s' :=
            match warn with
            | some sw => { s with warnings := s.warnings ++
                            [(⟨.ENTRY, e.strike, e.otype, candle_time,
                              some actual_time, .fallbackUsed sw.kind, none⟩ : Warning)] }
            | none => s
          .ok { s' with open_legs :=
                  dictUpsert s'.open_legs e.leg_id ⟨e, candle.Open, actual_time⟩ }
    else
      .ok { s with pending_entries := s.pending_entries ++ [e] }
  | .exitLeg leg_id reason =>
    match dictGet? s.open_legs leg_id with
    | none => .error (.keyError leg_id)
    | some leg =>
      let s₀ := { s with open_legs := dictRemove s.open_legs leg_id }
      match loadLeg store leg.meta.strike leg.meta.otype with
      | .error err => .error err
      | .ok opt_df =>
        match safe_get_candle opt_df candle_time with
        | none => .error (.noExitCandle leg.meta.strike leg.meta.otype candle_time)
        | some (candle, actual_time, warn) =>
          let s' :=
            match warn with
            | some sw => { s₀ with warnings := s₀.warnings ++
                            [(⟨.EXIT, leg.meta.strike, leg.meta.otype, candle_time,
                              some actual_time, .fallbackUsed sw.kind, some reason⟩ : Warning)] }
            | none => s₀
          let exit_price := candle.Close
          let pnl := (exit_price - leg.entry_price) * (-1)
          .ok { s' with trades := s'.trades ++
                  [(⟨leg.entry_time, leg.entry_price, actual_time, some index_price,
                    exit_price, reason, leg.meta.strike, leg.meta.otype, -1, pnl⟩ : Trade)] }

/-- The `for a in actions` loop (line 198). -/
def processIntents (store : OptionStore) (ENTRY_TIME candle_time : Nat)
    (index_price : ℚ) : DayState σ → List Intent → Except EngineError (DayState σ)
  | s, [] => .ok s
  | s, a :: rest =>
    match processAction store ENTRY_TIME candle_time index_price s a with
    | .error err => .error err
    | .ok s' => processIntents store ENTRY_TIME candle_time index_price s' rest

/-- One iteration of the intraday loop at minute `candle_time` with index
candle `row` (lines 131–347, the body after the exit-time check): choose
the index price (Open at the entry time, Close otherwise), resolve pending
entries, ask the strategy for intents, process them. -/
def stepMinute (store : OptionStore) (strat : Strategy σ) (s : DayState σ)
    (candle_time : Nat) (row : Candle) : Except EngineError (DayState σ) :=
  let index_price := if candle_time = strat.ENTRY_TIME then row.Open else row.Close
  match processPendings store candle_time s s.pending_entries with
  | .error err => .error err
  | .ok s₁ =>
    let p := strat.on_minute s₁.strat candle_time index_price
    processIntents store strat.ENTRY_TIME candle_time index_price
      { s₁ with strat := p.1 } p.2

/-- The intraday loop (`for ts, row in index_df.iterrows()`, lines 131–134):
`break` at the first row whose time is at or past the strategy's exit time. -/
def runLoop (store : OptionStore) (strat : Strategy σ) :
    List (Nat × Candle) → DayState σ → Except EngineError (DayState σ)
  | [], s => .ok s
  | (ts, row) :: rest, s =>
    if strat.EXIT_TIME ≤ ts then .ok s
    else
      match stepMinute store strat s ts row with
      | .error err => .error err
      | .ok s' => runLoop store strat rest s'

/-- The EOD index price (lines 415–420): the Close at `eod_time` if that
minute exists in the index series, else the last row's Close, else `None`. -/
def eodIndexPrice (index_df : List (Nat × Candle)) (eod_time : Nat) : Option ℚ :=
  match (index_df.filter (fun r => r.1 = eod_time)).head? with
  | some r => some r.2.Close
  | none => (index_df.getLast?).map (fun r => r.2.Close)

/-- Forced end-of-day closure of one still-open leg (lines 356–456): locate
the candle at `eod_time` with safe fallback — if none, record an
EOD_SKIPPED warning and `continue`; warn if approximate; exit at the
candle's Close with reason "EOD", `QTY = -1`, `PNL = (exit - entry) * -1`.
The leg is NOT removed from `open_legs` (the loop only iterates the dict). -/
def eodLeg (store : OptionStore) (eod_time : Nat) (eod_index_price : Option ℚ)
    (s : DayState σ) (kv : Nat × OpenLeg) : Except EngineError (DayState σ) :=
  let leg := kv.2
  match loadLeg store leg.meta.strike leg.meta.otype with
  | .error err => .error err
  | .ok opt_df =>
    match safe_get_candle opt_df eod_time with
    | none =>
      .ok { s with warnings := s.warnings ++
              [(⟨.EOD_EXIT, leg.meta.strike, leg.meta.otype, eod_time, none,
                .noEodCandleSkip, some "EOD_SKIPPED"⟩ : Warning)] }
    | some (candle, actual_exit_time, warn) =>
      let s' :=
        match warn with
        | some sw => { s with warnings := s.warnings ++
                        [(⟨.EOD_EXIT, leg.meta.strike, leg.meta.otype, eod_time,
                          some actual_exit_time, .fallbackUsed sw.kind, some "EOD"⟩ : Warning)] }
        | none => s
      let exit_price := candle.Close
      let pnl := (exit_price - leg.entry_price) * (-1)
      .ok { s' with trades := s'.trades ++
              [(⟨leg.entry_time, leg.entry_price, actual_exit_time, eod_index_price,
                exit_price, "EOD", leg.meta.strike, leg.meta.otype, -1, pnl⟩ : Trade)] }

/-- The `for leg_id, leg in open_legs.items()` EOD loop over a list of legs. -/
def eodLoop (store : OptionStore) (eod_time : Nat) (eod_index_price : Option ℚ) :
    DayState σ → List (Nat × OpenLeg) → Except EngineError (DayState σ)
  | s, [] => .ok s
  | s, kv :: rest =>
    match eodLeg store eod_time eod_index_price s kv with
    | .error err => .error err
    | .ok s' => eodLoop store eod_time eod_index_price s' rest

/-- Forced end-of-day closure pass: iterate the open-leg book. -/
def eodClose (store : OptionStore) (eod_time : Nat) (eod_index_price : Option ℚ)
    (s : DayState σ) : Except EngineError (DayState σ) :=
  eodLoop store eod_time eod_index_price s s.open_legs

/-- Sort key order on trades: the Python sort key is
`(DATE, ENTRY_TIME, TYPE)`; DATE is constant for a single day and "CE" <
"PE" as strings. -/
def otypeIdx : OType → Nat
  | .CE => 0
  | .PE => 1

/-- Non-strict lexicographic comparison of (ENTRY_TIME, TYPE) sort keys. -/
def tradeKeyLe (a b : Trade) : Bool :=
  a.entry_time < b.entry_time ∨
    (a.entry_time = b.entry_time ∧ otypeIdx a.otype ≤ otypeIdx b.otype)

/-- Stable insertion of a trade before the first element with a
not-smaller key. -/
def insertTrade (t : Trade) : List Trade → List Trade
  | [] => [t]
  | u :: us => if tradeKeyLe t u then t :: u :: us else u :: insertTrade t us

/-- `trades.sort(key=lambda x: (x["DATE"], x["ENTRY_TIME"], x["TYPE"]))`
(lines 461–467): a stable sort by the key, modelled as stable insertion
sort. -/
def sortTrades (l : List Trade) : List Trade := l.foldr insertTrade []

/-- The engine's state when the day's processing finishes: run the intraday
loop from empty books, then the forced EOD closure at `EXIT_TIME - 1`
minute.  Exposes the full final state (in particular `open_legs`). -/
def runDayState (store : OptionStore) (index_df : List (Nat × Candle))
    (strat : Strategy σ) (init : σ) : Except EngineError (DayState σ) :=
  match runLoop store strat index_df ⟨init, [], [], [], []⟩ with
  | .error err => .error err
  | .ok s =>
    let eod_time := strat.EXIT_TIME - 1
    eodClose store eod_time (eodIndexPrice index_df eod_time) s

/-- `run_event_backtest_v2`: the returned `(trades, warnings)` pair, trades
sorted by (DATE, ENTRY_TIME, TYPE). -/
def run_event_backtest_v2 (store : OptionStore) (index_df : List (Nat × Candle))
    (strat : Strategy σ) (init : σ) :
    Except EngineError (List Trade × List Warning) :=
  match runDayState store index_df strat init with
  | .error err => .error err
  | .ok s => .ok (sortTrades s.trades, s.warnings)

end Engine

/-! ## `_load_expiry_data` / `load_option_data` (src/data/options_reader.py)

The parquet archive is partitioned `year=YYYY/month=MM/expiry=YYYY-MM-DD/`.
For one fixed expiry date, the archive is modelled as a partial map from a
(year, month) key to the partition's rows (`none` models a missing
directory, and also a partition whose load raises — both `continue` to the
next candidate month).  A row carries the columns the loader reads: the
`date` column it filters on and the `StrikePrice`/`Type` columns
`load_option_data` filters on; the remaining columns (timestamps, OHLC)
are payload the loader passes through untouched and are bundled as the
row's candle data is irrelevant to partition selection.  The expiry-level
cache `_EXPIRY_CACHE` is a memo of `_load_expiry_data`'s result and is
modelled by the uncached computation. -/

namespace OptionsReader

/-- A calendar date. -/
structure Date where
  year : Nat
  month : Nat
  day : Nat
deriving DecidableEq, Repr

/-- One row of an expiry partition: the `date`, `StrikePrice` and `Type`
columns read by the loader (`Type` is a Lean keyword, hence `Type'`). -/
structure OptRow where
  date : Date
  StrikePrice : Int
  Type' : OType
deriving DecidableEq, Repr

/-- The partition store for one expiry: rows by (year, month) directory. -/
abbrev PartitionStore := Nat × Nat → Option (List OptRow)

/-- The candidate months (lines 50–59): the expiry's own year/month first,
then the trade date's year/month if different. -/
def months_to_try (trade_date expiry_date : Date) : List (Nat × Nat) :=
  let m := [(expiry_date.year, expiry_date.month)]
  if (trade_date.year, trade_date.month) ∈ m then m
  else m ++ [(trade_date.year, trade_date.month)]

/-- The `for year, month in months_to_try` loop (lines 61–103): skip a
missing partition; filter the partition's rows by the trade date; if no
rows remain try the next month, else return the filtered rows. -/
def tryMonths (store : PartitionStore) (trade_date : Date) :
    List (Nat × Nat) → Option (List OptRow)
  | [] => none
  | ym :: rest =>
    match store ym with
    | none => tryMonths store trade_date rest
    | some rows =>
      let table := rows.filter (fun r => r.date = trade_date)
      if table.isEmpty then tryMonths store trade_date rest else some table

/-- `_load_expiry_data(parquet_root, trade_date, expiry_date)`: try the
candidate months in order; `None` if no partition yields rows for the
trade date. -/
def load_expiry_data (store : PartitionStore) (trade_date expiry_date : Date) :
    Option (List OptRow) :=
  tryMonths store trade_date (months_to_try trade_date expiry_date)

/-- `ValueError`s raised by `load_option_data`. -/
inductive ReaderError
  | noExpiryData (trade_date expiry_date : Date)
  | noLegData (trade_date : Date) (option_type : OType) (strike : Int) (expiry_date : Date)
deriving DecidableEq, Repr

/-- `load_option_data(parquet_root, trade_date, expiry, strike, option_type)`
(lines 109–168): load the expiry's rows for the trade date (raising if none
found), filter by strike and option type, raising exactly when the filtered
series is empty. -/
def load_option_data (store : PartitionStore) (trade_date expiry_date : Date)
    (strike : Int) (option_type : OType) : Except ReaderError (List OptRow) :=
  match load_expiry_data store trade_date expiry_date with
  | none => .error (.noExpiryData trade_date expiry_date)
  | some expiry_df =>
    let leg_df := expiry_df.filter
      (fun r => r.StrikePrice = strike ∧ r.Type' = option_type)
    if leg_df.isEmpty then
      .error (.noLegData trade_date option_type strike expiry_date)
    else .ok leg_df

end OptionsReader

/-! ## `MinutePnLTracker.record` (src/analytics/minute_pnl_tracker.py, lines 38–82)

The tracker's output rows are modelled without their constant columns
(`Date`, `Strategy`, and the issue `Issue` message string, constant per
day/leg respectively). -/

namespace Tracker

/-- One row of the minute-PnL output: the minute and the PnL value. -/
structure PnlRow where
  time : Nat
  pnl : ℚ
deriving DecidableEq, Repr

/-- One row of the issues output ("Close candle missing at HH:MM"):
the minute and the leg it refers to. -/
structure IssueRow where
  time : Nat
  leg_id : Nat
  strike : Int
  otype : OType
deriving DecidableEq, Repr

/-- The tracker's mutable state: accumulated PnL rows, issue rows, and the
realized-PnL accumulator. -/
structure TrackerState where
  pnl_rows : List PnlRow
  issue_rows : List IssueRow
  realized_pnl : ℚ
deriving DecidableEq, Repr

/-- Modelled from the spec: `get_close_at_time` is imported by the tracker
from `data.options_reader` but is absent from the sources.  Per the spec
(§4.1), `getCloseAt(identity, time)` is an O(1) close-price lookup that
"returns 'absent' (not an exception) on miss".  It is modelled as an
abstract close-price map from (strike, option type, minute) to an optional
close price. -/
def get_close_at_time (closes : Int → OType → Nat → Option ℚ) (strike : Int)
    (option_type : OType) (candle_time : Nat) : Option ℚ :=
  closes strike option_type candle_time

/-- Python's `round(x, 4)` on the snapshot value (line 81): round half to
even at 4 decimal places.  (Binary floating-point representation artifacts
of CPython's `round` are not modelled.) -/
def round4 (q : ℚ) : ℚ :=
  let s := q * 10000
  let f : ℤ := Int.floor s
  let frac : ℚ := s - (f : ℚ)
  let n : ℤ :=
    if frac < 1/2 then f
    else if 1/2 < frac then f + 1
    else if f % 2 = 0 then f else f + 1
  (n : ℚ) / 10000

/-- The `for leg_id, leg in open_legs.items()` loop of `record` (lines
44–71): returns the mark-to-market sum `Σ (entry_price - close)` over the
legs whose close resolves, and the issue rows for the legs whose close is
missing, in leg order. -/
def scanLegs (closes : Int → OType → Nat → Option ℚ) (candle_time : Nat) :
    List (Nat × Engine.OpenLeg) → ℚ × List IssueRow
  | [] => (0, [])
  | kv :: rest =>
    let p := scanLegs closes candle_time rest
    match get_close_at_time closes kv.2.meta.strike kv.2.meta.otype candle_time with
    | none => (p.1, (⟨candle_time, kv.1, kv.2.meta.strike, kv.2.meta.otype⟩ : IssueRow) :: p.2)
    | some c => (kv.2.entry_price - c + p.1, p.2)

/-- `MinutePnLTracker.record(ts, trade_date, open_legs, market, expiry_date)`:
if any open leg's close is missing, append one issue row per missing leg
and emit no PnL row; otherwise append exactly one PnL row with value
`round(realized + mtm, 4)`. -/
def record (closes : Int → OType → Nat → Option ℚ) (candle_time : Nat)
    (open_legs : List (Nat × Engine.OpenLeg)) (st : TrackerState) : TrackerState :=
  let p := scanLegs closes candle_time open_legs
  if p.2.isEmpty then
    { st with pnl_rows := st.pnl_rows ++
        [⟨candle_time, round4 (st.realized_pnl + p.1)⟩] }
  else
    { st with issue_rows := st.issue_rows ++ p.2 }

end Tracker

/-! # Theorems -/

/-! ## C6 — safe candle lookup with fallback "last" -/

/-- C6: For every candle series and target time, the safe candle lookup with
fallback "last" returns the exact-time candle with no warning when one
exists; otherwise it returns the last candle at or before the target time,
and if none exists the last candle in the series overall, in each fallback
case producing exactly one warning that carries both the requested time and
the actual time used; and it returns no candle exactly when the series is
empty (at the engine's call sites that record a skip warning rather than
raising, this is the only way the skip can trigger). -/
theorem safe_get_candle_spec (df : Backtest.Series) (t : Nat) :
    (∀ r, (df.filter (fun p => p.1 = t)).head? = some r →
        Backtest.safe_get_candle df t = some (r.2, t, none)) ∧
    ((df.filter (fun p => p.1 = t)).head? = none →
      ∀ r, (df.filter (fun p => p.1 ≤ t)).getLast? = some r →
        Backtest.safe_get_candle df t =
          some (r.2, r.1, some ⟨t, r.1, Backtest.FallbackKind.lastBefore⟩)) ∧
    ((df.filter (fun p => p.1 = t)).head? = none →
      (df.filter (fun p => p.1 ≤ t)).getLast? = none →
      ∀ r, df.getLast? = some r →
        Backtest.safe_get_candle df t =
          some (r.2, r.1, some ⟨t, r.1, Backtest.FallbackKind.lastAvail⟩)) ∧
    (Backtest.safe_get_candle df t = none ↔ df = []) := by
  refine ⟨?_, ?_, ?_, ?_, ?_⟩
  · intro r h
    simp [Backtest.safe_get_candle, h]
  · intro h1 r h2
    simp [Backtest.safe_get_candle, h1, h2]
  · intro h1 h2 r h3
    simp [Backtest.safe_get_candle, h1, h2, h3]
  · intro h
    by_contra hne
    have hsome : df.getLast?.isSome := List.getLast?_isSome.mpr hne
    obtain ⟨r, hr⟩ := Option.isSome_iff_exists.mp hsome
    rcases h1 : (df.filter (fun p => p.1 = t)).head? with _ | r1 <;>
      rcases h2 : (df.filter (fun p => p.1 ≤ t)).getLast? with _ | r2 <;>
      simp [Backtest.safe_get_candle, h1, h2, hr] at h
  · intro h
    subst h
    rfl

/-- Concrete instances of `safe_get_candle_spec`: an exact hit at 565, a
last-before fallback at 566, a last-available fallback at 550, and the
empty series. -/
theorem safe_get_candle_spec_witness :
    Backtest.safe_get_candle [(560, ⟨10, 12, 9, 11⟩), (565, ⟨11, 13, 10, 12⟩)] 565 =
      some (⟨11, 13, 10, 12⟩, 565, none) ∧
    Backtest.safe_get_candle [(560, ⟨10, 12, 9, 11⟩), (565, ⟨11, 13, 10, 12⟩)] 566 =
      some (⟨11, 13, 10, 12⟩, 565,
        some ⟨566, 565, Backtest.FallbackKind.lastBefore⟩) ∧
    Backtest.safe_get_candle [(560, ⟨10, 12, 9, 11⟩), (565, ⟨11, 13, 10, 12⟩)] 550 =
      some (⟨11, 13, 10, 12⟩, 565,
        some ⟨550, 565, Backtest.FallbackKind.lastAvail⟩) ∧
    Backtest.safe_get_candle ([] : Backtest.Series) 550 = none := by
  refine ⟨?_, ?_, ?_, ?_⟩
  · exact (safe_get_candle_spec [(560, ⟨10, 12, 9, 11⟩), (565, ⟨11, 13, 10, 12⟩)] 565).1
      (565, ⟨11, 13, 10, 12⟩) (by decide)
  · exact (safe_get_candle_spec [(560, ⟨10, 12, 9, 11⟩), (565, ⟨11, 13, 10, 12⟩)] 566).2.1
      (by decide) (565, ⟨11, 13, 10, 12⟩) (by decide)
  · exact (safe_get_candle_spec [(560, ⟨10, 12, 9, 11⟩), (565, ⟨11, 13, 10, 12⟩)] 550).2.2.1
      (by decide) (by decide) (565, ⟨11, 13, 10, 12⟩) (by decide)
  · exact (safe_get_candle_spec ([] : Backtest.Series) 550).2.2.2.mpr rfl

/-! ## C2 — stop-loss semantics of `execute_option_leg` -/

namespace Execution

/-- The stop-loss level: `entry_price * (1 + sl_pct)` for a short leg
(`qty < 0`), `entry_price * (1 - sl_pct)` for a long leg. -/
def slLevel (entry_price sl_pct : ℚ) (qty : Int) : ℚ :=
  if qty < 0 then entry_price * (1 + sl_pct) else entry_price * (1 - sl_pct)

/-- The breach test: a short leg breaches when `High ≥ SL`, a long leg when
`Low ≤ SL`. -/
def breachB (sl : ℚ) (qty : Int) (c : Backtest.Candle) : Bool :=
  if qty < 0 then decide (sl ≤ c.High) else decide (c.Low ≤ sl)

/-- The monitoring loop scans exactly the prefix of candles at or before
the exit time and returns the first breaching one. -/
lemma slScan_eq_find?_takeWhile (check : Backtest.Candle → Bool) (xt : Nat)
    (l : Backtest.Series) :
    slScan check xt l =
      (l.takeWhile (fun r => r.1 ≤ xt)).find? (fun r => check r.2) := by
  induction l with
  | nil => rfl
  | cons r rest ih =>
    by_cases h : xt < r.1
    · have h' : ¬ (r.1 ≤ xt) := by omega
      simp [slScan, h, List.takeWhile_cons, h']
    · have hle : r.1 ≤ xt := by omega
      by_cases hc : check r.2
      · simp [slScan, h, List.takeWhile_cons, hle, hc]
      · simp [slScan, h, List.takeWhile_cons, hle, hc, ih]

/-- The breach-check closure built by `execute_option_leg` is the breach
test at the computed stop-loss level. -/
lemma sl_check_eq (ep sl_pct : ℚ) (qty : Int) :
    (if qty < 0 then (fun row : Backtest.Candle => decide (ep * (1 + sl_pct) ≤ row.High))
     else (fun row : Backtest.Candle => decide (row.Low ≤ ep * (1 - sl_pct)))) =
      breachB (slLevel ep sl_pct qty) qty := by
  funext c
  by_cases h : qty < 0 <;> simp [breachB, slLevel, h]

/-- C2 (amended): on a series with an eligible entry candle, the stop-loss
level is `entry*(1+sl_pct)` short / `entry*(1-sl_pct)` long; the breach
test (short: High ≥ SL, long: Low ≤ SL) is evaluated on every eligible
minute from the entry minute onward (including the entry candle itself),
up to the exit time; the first breaching candle gives an exit at its High
(short) / Low (long) with reason SL_HIT; with no breach, the last eligible
candle at or before the exit time gives an exit at its Close with reason
TIME_EXIT; and the call fails if no such candle exists. -/
theorem execute_option_leg_spec (df : Backtest.Series) (et xt : Nat)
    (sl_pct : ℚ) (qty : Int) (er : Nat × Backtest.Candle)
    (helig : (df.filter (fun r => et ≤ r.1)).head? = some er) :
    (∀ br, ((df.filter (fun r => et ≤ r.1)).takeWhile (fun r => r.1 ≤ xt)).find?
          (fun r => breachB (slLevel er.2.Open sl_pct qty) qty r.2) = some br →
        execute_option_leg df et xt sl_pct qty =
          .ok ⟨er.1, er.2.Open, decide (er.1 ≠ et),
               (if er.1 ≠ et then (er.1 : Int) - (et : Int) else 0),
               br.1, (if qty < 0 then br.2.High else br.2.Low), .SL_HIT,
               slLevel er.2.Open sl_pct qty, qty,
               ((if qty < 0 then br.2.High else br.2.Low) - er.2.Open) * qty⟩) ∧
    (((df.filter (fun r => et ≤ r.1)).takeWhile (fun r => r.1 ≤ xt)).find?
          (fun r => breachB (slLevel er.2.Open sl_pct qty) qty r.2) = none →
      ∀ lr, ((df.filter (fun r => et ≤ r.1)).filter (fun r => r.1 ≤ xt)).getLast? = some lr →
        execute_option_leg df et xt sl_pct qty =
          .ok ⟨er.1, er.2.Open, decide (er.1 ≠ et),
               (if er.1 ≠ et then (er.1 : Int) - (et : Int) else 0),
               lr.1, lr.2.Close, .TIME_EXIT, slLevel er.2.Open sl_pct qty, qty,
               (lr.2.Close - er.2.Open) * qty⟩) ∧
    (((df.filter (fun r => et ≤ r.1)).takeWhile (fun r => r.1 ≤ xt)).find?
          (fun r => breachB (slLevel er.2.Open sl_pct qty) qty r.2) = none →
      ((df.filter (fun r => et ≤ r.1)).filter (fun r => r.1 ≤ xt)).getLast? = none →
        execute_option_leg df et xt sl_pct qty = .error .noExitCandle) := by
  have hdf : df.isEmpty = false := by
    cases df with
    | nil => simp at helig
    | cons a l => rfl
  have hscan : slScan
      (if qty < 0 then (fun row : Backtest.Candle => decide (slLevel er.2.Open sl_pct qty ≤ row.High))
       else (fun row : Backtest.Candle => decide (row.Low ≤ slLevel er.2.Open sl_pct qty)))
      xt (df.filter (fun r => et ≤ r.1)) =
      ((df.filter (fun r => et ≤ r.1)).takeWhile (fun r => r.1 ≤ xt)).find?
        (fun r => breachB (slLevel er.2.Open sl_pct qty) qty r.2) := by
    rw [slScan_eq_find?_takeWhile]
    congr 1
    funext r
    by_cases h : qty < 0 <;> simp [breachB, slLevel, h]
  refine ⟨?_, ?_, ?_⟩
  · intro br hbr
    simp only [slLevel] at hbr
    simp only [execute_option_leg, hdf, Bool.false_eq_true, if_false, helig,
      slLevel] at hscan ⊢
    rw [hscan, hbr]
    simp
  · intro hnone lr hlr
    simp only [slLevel] at hnone
    simp only [execute_option_leg, hdf, Bool.false_eq_true, if_false, helig,
      slLevel] at hscan ⊢
    rw [hscan, hnone, hlr]
    simp
  · intro hnone hlast
    simp only [slLevel] at hnone
    simp only [execute_option_leg, hdf, Bool.false_eq_true, if_false, helig,
      slLevel] at hscan ⊢
    rw [hscan, hnone, hlast]

/-- Concrete instances of `execute_option_leg_spec`: a short leg breaching
at the second eligible minute (SL_HIT at its High), a short leg with no
breach (TIME_EXIT at the last eligible Close), and a call with no candle
at or before the exit time (error). -/
theorem execute_option_leg_spec_witness :
    execute_option_leg
        [(560, ⟨100, 105, 95, 101⟩), (561, ⟨101, 150, 100, 102⟩), (601, ⟨102, 103, 101, 103⟩)]
        560 600 (2/5) (-1) =
      .ok ⟨560, 100, false, 0, 561, 150, .SL_HIT, 140, -1, -50⟩ ∧
    execute_option_leg
        [(560, ⟨100, 105, 95, 101⟩), (561, ⟨101, 150, 100, 102⟩), (601, ⟨102, 103, 101, 103⟩)]
        560 600 1 (-1) =
      .ok ⟨560, 100, false, 0, 561, 102, .TIME_EXIT, 200, -1, -2⟩ ∧
    execute_option_leg
        [(560, ⟨100, 105, 95, 101⟩), (561, ⟨101, 150, 100, 102⟩), (601, ⟨102, 103, 101, 103⟩)]
        560 500 (2/5) (-1) = .error .noExitCandle := by
  refine ⟨?_, ?_, ?_⟩
  · exact (execute_option_leg_spec
        [(560, ⟨100, 105, 95, 101⟩), (561, ⟨101, 150, 100, 102⟩), (601, ⟨102, 103, 101, 103⟩)]
        560 600 (2/5) (-1) (560, ⟨100, 105, 95, 101⟩) (by decide)).1
      (561, ⟨101, 150, 100, 102⟩) (by decide)
  · exact (execute_option_leg_spec
        [(560, ⟨100, 105, 95, 101⟩), (561, ⟨101, 150, 100, 102⟩), (601, ⟨102, 103, 101, 103⟩)]
        560 600 1 (-1) (560, ⟨100, 105, 95, 101⟩) (by decide)).2.1
      (by decide) (561, ⟨101, 150, 100, 102⟩) (by decide)
  · exact (execute_option_leg_spec
        [(560, ⟨100, 105, 95, 101⟩), (561, ⟨101, 150, 100, 102⟩), (601, ⟨102, 103, 101, 103⟩)]
        560 500 (2/5) (-1) (560, ⟨100, 105, 95, 101⟩) (by decide)).2.2
      (by decide) (by decide)

/-- C2 counterexample: with a single candle at the entry minute
(Open = 100, High = 150), stop-loss 40 %, short, exit time 570, the breach
test fires on the entry minute itself: the code exits at that minute's
High with reason SL_HIT, not (as the claim's "each minute subsequent to
the entry minute" implies, there being no subsequent minute) at the last
candle's Close with reason TIME_EXIT; the code's stop-loss reason literal
is "SL_HIT", not "STOP_LOSS". -/
theorem execute_option_leg_entry_minute_breach :
    execute_option_leg [(560, ⟨100, 150, 95, 120⟩)] 560 570 (2/5) (-1) =
      .ok ⟨560, 100, false, 0, 560, 150, .SL_HIT, 140, -1, -50⟩ ∧
    ExitReason.SL_HIT ≠ ExitReason.TIME_EXIT ∧ (150 : ℚ) ≠ 120 := by
  refine ⟨by rfl, by decide, by decide⟩

end Execution

/-! ## Engine lemmas -/

namespace Engine

variable {σ : Type}

/-- The shape of every trade row the event engine emits: quantity −1 and
PnL `(exit − entry) × (−1)`. -/
def TradeP (t : Trade) : Prop :=
  t.qty = -1 ∧ t.pnl = (t.exit_price - t.entry_price) * (-1)

lemma resolvePending_ok_fields {store : OptionStore} {t : Nat} {s s' : DayState σ}
    {e : EnterIntent} (h : resolvePending store t s e = .ok s') :
    s'.trades = s.trades ∧ s'.pending_entries = s.pending_entries ∧ s'.strat = s.strat := by
  unfold resolvePending at h
  cases hl : loadLeg store e.strike e.otype with
  | error err => simp only [hl] at h; simp at h
  | ok df =>
    simp only [hl] at h
    cases hs : safe_get_candle df t with
    | none => simp only [hs] at h; simp only [Except.ok.injEq] at h; subst h; exact ⟨rfl, rfl, rfl⟩
    | some v =>
      simp only [hs] at h
      obtain ⟨c, at_, w⟩ := v
      cases w with
      | none => simp only [Except.ok.injEq] at h; subst h; exact ⟨rfl, rfl, rfl⟩
      | some sw => simp only [Except.ok.injEq] at h; subst h; exact ⟨rfl, rfl, rfl⟩

lemma processPendings_ok_fields {store : OptionStore} {t : Nat} :
    ∀ {l : List EnterIntent} {s s' : DayState σ},
      processPendings store t s l = .ok s' →
      s'.trades = s.trades ∧ s'.pending_entries = [] ∧ s'.strat = s.strat := by
  intro l
  induction l with
  | nil =>
    intro s s' h
    unfold processPendings at h
    simp only [Except.ok.injEq] at h
    subst h
    exact ⟨rfl, rfl, rfl⟩
  | cons e rest ih =>
    intro s s' h
    unfold processPendings at h
    cases hr : resolvePending store t s e with
    | error err => simp only [hr] at h; simp at h
    | ok s₁ =>
      simp only [hr] at h
      obtain ⟨h1, h2, h3⟩ := resolvePending_ok_fields hr
      obtain ⟨g1, g2, g3⟩ := ih h
      exact ⟨g1.trans h1, g2, g3.trans h3⟩

lemma processAction_ok_trades {store : OptionStore} {ET t : Nat} {ip : ℚ}
    {s s' : DayState σ} {a : Intent} (h : processAction store ET t ip s a = .ok s') :
    ∀ tr ∈ s'.trades, tr ∈ s.trades ∨ TradeP tr := by
  cases a with
  | enter e =>
    simp only [processAction] at h
    split at h
    · cases hl : loadLeg store e.strike e.otype with
      | error err => simp only [hl] at h; simp at h
      | ok df =>
        simp only [hl] at h
        cases hs : safe_get_candle df t with
        | none => simp only [hs] at h; simp at h
        | some v =>
          simp only [hs] at h
          obtain ⟨c, at_, w⟩ := v
          cases w with
          | none =>
            simp only [Except.ok.injEq] at h
            subst h
            exact fun tr htr => Or.inl htr
          | some sw =>
            simp only [Except.ok.injEq] at h
            subst h
            exact fun tr htr => Or.inl htr
    · simp only [Except.ok.injEq] at h
      subst h
      exact fun tr htr => Or.inl htr
  | exitLeg lid reason =>
    simp only [processAction] at h
    cases hg : dictGet? s.open_legs lid with
    | none => simp only [hg] at h; simp at h
    | some leg =>
      simp only [hg] at h
      cases hl : loadLeg store leg.meta.strike leg.meta.otype with
      | error err => simp only [hl] at h; simp at h
      | ok df =>
        simp only [hl] at h
        cases hs : safe_get_candle df t with
        | none => simp only [hs] at h; simp at h
        | some v =>
          simp only [hs] at h
          obtain ⟨c, at_, w⟩ := v
          cases w with
          | none =>
            simp only [Except.ok.injEq] at h
            subst h
            intro tr htr
            rcases List.mem_append.mp htr with h' | h'
            · exact Or.inl h'
            · rcases List.mem_singleton.mp h' with rfl
              exact Or.inr ⟨rfl, rfl⟩
          | some sw =>
            simp only [Except.ok.injEq] at h
            subst h
            intro tr htr
            rcases List.mem_append.mp htr with h' | h'
            · exact Or.inl h'
            · rcases List.mem_singleton.mp h' with rfl
              exact Or.inr ⟨rfl, rfl⟩

lemma processIntents_ok_trades {store : OptionStore} {ET t : Nat} {ip : ℚ} :
    ∀ {l : List Intent} {s s' : DayState σ},
      processIntents store ET t ip s l = .ok s' →
      ∀ tr ∈ s'.trades, tr ∈ s.trades ∨ TradeP tr := by
  intro l
  induction l with
  | nil =>
    intro s s' h
    unfold processIntents at h
    simp only [Except.ok.injEq] at h
    subst h
    exact fun tr htr => Or.inl htr
  | cons a rest ih =>
    intro s s' h
    unfold processIntents at h
    cases ha : processAction store ET t ip s a with
    | error err => simp only [ha] at h; simp at h
    | ok s₁ =>
      simp only [ha] at h
      intro tr htr
      rcases ih h tr htr with h' | h'
      · exact processAction_ok_trades ha tr h'
      · exact Or.inr h'

lemma stepMinute_ok_trades {store : OptionStore} {strat : Strategy σ}
    {s s' : DayState σ} {t : Nat} {row : Candle}
    (h : stepMinute store strat s t row = .ok s') :
    ∀ tr ∈ s'.trades, tr ∈ s.trades ∨ TradeP tr := by
  unfold stepMinute at h
  cases hp : processPendings store t s s.pending_entries with
  | error err => simp only [hp] at h; simp at h
  | ok s₁ =>
    simp only [hp] at h
    intro tr htr
    rcases processIntents_ok_trades h tr htr with h' | h'
    · exact Or.inl ((processPendings_ok_fields hp).1 ▸ h')
    · exact Or.inr h'

lemma runLoop_ok_trades {store : OptionStore} {strat : Strategy σ} :
    ∀ {rows : List (Nat × Candle)} {s s' : DayState σ},
      runLoop store strat rows s = .ok s' →
      ∀ tr ∈ s'.trades, tr ∈ s.trades ∨ TradeP tr := by
  intro rows
  induction rows with
  | nil =>
    intro s s' h
    unfold runLoop at h
    simp only [Except.ok.injEq] at h
    subst h
    exact fun tr htr => Or.inl htr
  | cons r rest ih =>
    intro s s' h
    obtain ⟨ts, row⟩ := r
    unfold runLoop at h
    split at h
    · simp only [Except.ok.injEq] at h
      subst h
      exact fun tr htr => Or.inl htr
    · cases hm : stepMinute store strat s ts row with
      | error err => simp only [hm] at h; simp at h
      | ok s₁ =>
        simp only [hm] at h
        intro tr htr
        rcases ih h tr htr with h' | h'
        · exact stepMinute_ok_trades hm tr h'
        · exact Or.inr h'

/-- Number of EOD skip warnings ("No EOD candle found - leg skipped") in a
warnings list. -/
def eodSkips (ws : List Warning) : Nat :=
  (ws.filter (fun w => w.msg = WMsg.noEodCandleSkip)).length

lemma eodSkips_append (ws₁ ws₂ : List Warning) :
    eodSkips (ws₁ ++ ws₂) = eodSkips ws₁ + eodSkips ws₂ := by
  simp [eodSkips, List.filter_append]

lemma eodLeg_ok_account {store : OptionStore} {et : Nat} {eip : Option ℚ}
    {s s' : DayState σ} {kv : Nat × OpenLeg}
    (h : eodLeg store et eip s kv = .ok s') :
    s'.open_legs = s.open_legs ∧ s'.pending_entries = s.pending_entries ∧
    s'.strat = s.strat ∧
    s'.trades.length + eodSkips s'.warnings =
      s.trades.length + eodSkips s.warnings + 1 ∧
    (∀ tr ∈ s'.trades, tr ∈ s.trades ∨ (TradeP tr ∧ tr.exit_reason = "EOD")) := by
  unfold eodLeg at h
  cases hl : loadLeg store kv.2.meta.strike kv.2.meta.otype with
  | error err => simp only [hl] at h; simp at h
  | ok df =>
    simp only [hl] at h
    cases hs : safe_get_candle df et with
    | none =>
      simp only [hs] at h
      simp only [Except.ok.injEq] at h
      subst h
      refine ⟨rfl, rfl, rfl, ?_, fun tr htr => Or.inl htr⟩
      simp [eodSkips_append, eodSkips]; omega
    | some v =>
      simp only [hs] at h
      obtain ⟨c, at_, w⟩ := v
      cases w with
      | none =>
        simp only [Except.ok.injEq] at h
        subst h
        refine ⟨rfl, rfl, rfl, ?_, ?_⟩
        · simp [eodSkips]; omega
        · intro tr htr
          rcases List.mem_append.mp htr with h' | h'
          · exact Or.inl h'
          · rcases List.mem_singleton.mp h' with rfl
            exact Or.inr ⟨⟨rfl, rfl⟩, rfl⟩
      | some sw =>
        simp only [Except.ok.injEq] at h
        subst h
        refine ⟨rfl, rfl, rfl, ?_, ?_⟩
        · simp [eodSkips_append, eodSkips]; omega
        · intro tr htr
          rcases List.mem_append.mp htr with h' | h'
          · exact Or.inl h'
          · rcases List.mem_singleton.mp h' with rfl
            exact Or.inr ⟨⟨rfl, rfl⟩, rfl⟩

lemma eodLoop_ok_account {store : OptionStore} {et : Nat} {eip : Option ℚ} :
    ∀ {legs : List (Nat × OpenLeg)} {s s' : DayState σ},
      eodLoop store et eip s legs = .ok s' →
      s'.open_legs = s.open_legs ∧ s'.pending_entries = s.pending_entries ∧
      s'.trades.length + eodSkips s'.warnings =
        s.trades.length + eodSkips s.warnings + legs.length ∧
      (∀ tr ∈ s'.trades, tr ∈ s.trades ∨ (TradeP tr ∧ tr.exit_reason = "EOD")) := by
  intro legs
  induction legs with
  | nil =>
    intro s s' h
    unfold eodLoop at h
    simp only [Except.ok.injEq] at h
    subst h
    exact ⟨rfl, rfl, by simp, fun tr htr => Or.inl htr⟩
  | cons kv rest ih =>
    intro s s' h
    unfold eodLoop at h
    cases he : eodLeg store et eip s kv with
    | error err => simp only [he] at h; simp at h
    | ok s₁ =>
      simp only [he] at h
      obtain ⟨e1, e2, e3, e4, e5⟩ := eodLeg_ok_account he
      obtain ⟨g1, g2, g3, g4⟩ := ih h
      refine ⟨g1.trans e1, g2.trans e2, ?_, ?_⟩
      · rw [g3, e4]
        simp [List.length_cons]
        omega
      · intro tr htr
        rcases g4 tr htr with h' | h'
        · rcases e5 tr h' with h'' | h''
          · exact Or.inl h''
          · exact Or.inr h''
        · exact Or.inr h'

/-- Insertion keeps the inserted element and the list (as a permutation). -/
lemma insertTrade_perm (t : Trade) (l : List Trade) :
    (insertTrade t l).Perm (t :: l) := by
  induction l with
  | nil => rfl
  | cons u us ih =>
    unfold insertTrade
    split
    · rfl
    · exact ((ih.cons u).trans (List.Perm.swap t u us))

/-- `sortTrades` permutes the trade list. -/
lemma sortTrades_perm (l : List Trade) : (sortTrades l).Perm l := by
  induction l with
  | nil => rfl
  | cons t ts ih =>
    unfold sortTrades
    exact (insertTrade_perm t (sortTrades ts)).trans (ih.cons t)

/-- `eodLeg` neither reads nor clears the pending-entry queue. -/
lemma eodLeg_pending_irrel (store : OptionStore) (et : Nat) (eip : Option ℚ)
    (s : DayState σ) (p : List EnterIntent) (kv : Nat × OpenLeg) :
    eodLeg store et eip { s with pending_entries := p } kv =
      (eodLeg store et eip s kv).map (fun u => { u with pending_entries := p }) := by
  unfold eodLeg
  cases hl : loadLeg store kv.2.meta.strike kv.2.meta.otype with
  | error err => simp [hl, Except.map]
  | ok df =>
    simp only [hl]
    cases hs : safe_get_candle df et with
    | none => simp [hs, Except.map]
    | some v =>
      obtain ⟨c, at_, w⟩ := v
      cases w with
      | none => simp [hs, Except.map]
      | some sw => simp [hs, Except.map]

/-- Neither does the EOD loop. -/
lemma eodLoop_pending_irrel (store : OptionStore) (et : Nat) (eip : Option ℚ) :
    ∀ (legs : List (Nat × OpenLeg)) (s : DayState σ) (p : List EnterIntent),
      eodLoop store et eip { s with pending_entries := p } legs =
        (eodLoop store et eip s legs).map (fun u => { u with pending_entries := p }) := by
  intro legs
  induction legs with
  | nil => intro s p; rfl
  | cons kv rest ih =>
    intro s p
    unfold eodLoop
    rw [eodLeg_pending_irrel]
    cases he : eodLeg store et eip s kv with
    | error err => simp [he, Except.map]
    | ok s₁ =>
      simp only [he, Except.map]
      exact ih s₁ p

/-- Trade-shape invariant through a successful full run (loop + EOD + sort):
every returned trade has `QTY = -1` and `PNL = (exit - entry) * (-1)`. -/
lemma run_ok_trades_inv {store : OptionStore} {index_df : List (Nat × Candle)}
    {strat : Strategy σ} {init : σ} {res : List Trade × List Warning}
    (h : run_event_backtest_v2 store index_df strat init = .ok res) :
    ∀ tr ∈ res.1, TradeP tr := by
  unfold run_event_backtest_v2 at h
  cases hr : runDayState store index_df strat init with
  | error err => simp only [hr] at h; simp at h
  | ok s =>
    simp only [hr] at h
    simp only [Except.ok.injEq] at h
    subst h
    intro tr htr
    have htr' : tr ∈ s.trades := (sortTrades_perm s.trades).mem_iff.mp htr
    unfold runDayState at hr
    cases hl : runLoop store strat index_df ⟨init, [], [], [], []⟩ with
    | error err => simp only [hl] at hr; simp at hr
    | ok s₁ =>
      simp only [hl] at hr
      unfold eodClose at hr
      rcases (eodLoop_ok_account hr).2.2.2 tr htr' with hmem | hP
      · rcases runLoop_ok_trades hl tr hmem with hmem' | hP'
        · exact absurd hmem' (List.not_mem_nil tr)
        · exact hP'
      · exact hP.1

/-! ### Concrete exemplar inputs shared by the engine witnesses -/

/-- A store with one two-minute option series for every (strike, type). -/
def exStore : OptionStore := fun _ _ => [(560, ⟨10, 12, 9, 8⟩), (561, ⟨9, 11, 8, 9⟩)]

/-- A two-minute index day (9:20 and 9:21). -/
def exIndex : List (Nat × Candle) :=
  [(560, ⟨100, 101, 99, 100⟩), (561, ⟨100, 102, 99, 101⟩)]

/-- A stateless strategy that opens one short CE leg at the entry time
(9:20 = minute 560) and holds it to the end (exit 15:15 = minute 915). -/
def exStrat : Strategy Unit :=
  ⟨560, 915, fun u t _ => if t = 560 then (u, [Intent.enter ⟨1, 100, OType.CE⟩]) else (u, [])⟩

/-- A strategy that immediately emits an EXIT for a leg that was never
opened. -/
def exStratBad : Strategy Unit :=
  ⟨560, 915, fun u t _ => if t = 560 then (u, [Intent.exitLeg 99 "SL"]) else (u, [])⟩

/-- The empty day-start state. -/
def exS0 : DayState Unit := ⟨(), [], [], [], []⟩

/-- The ENTER intent `exStrat` emits. -/
def exE1 : EnterIntent := ⟨1, 100, OType.CE⟩

/-- The open leg `exStrat`'s entry produces. -/
def exLeg : OpenLeg := ⟨exE1, 10, 560⟩

/-- The engine state when `exStrat`'s intraday loop ends: leg 1 still open. -/
def exLoopEnd : DayState Unit := ⟨(), [(1, exLeg)], [], [], []⟩

/-- The EOD trade the forced closure writes for leg 1. -/
def exEodTrade : Trade := ⟨560, 10, 561, some 101, 9, "EOD", 100, OType.CE, -1, 1⟩

/-- The EOD fallback warning the forced closure writes for leg 1. -/
def exEodWarn : Warning :=
  ⟨.EOD_EXIT, 100, OType.CE, 914, some 561, .fallbackUsed .lastBefore, some "EOD"⟩

/-- The engine state after the forced EOD closure: the trade and warning
are appended but leg 1 is still in the open-leg mapping. -/
def exFinal : DayState Unit := ⟨(), [(1, exLeg)], [], [exEodTrade], [exEodWarn]⟩

/-! ### C1 — open-leg book at day end -/

/-- C1 (amended): a successful forced end-of-day closure accounts every leg
still in the open-leg book exactly once — the trade count plus the count of
logged EOD skips grows by exactly the number of open legs, and every new
trade is an "EOD" trade — but it does not clear the open-leg mapping: the
mapping after the closure equals the mapping before it (the day then ends
and the mapping is discarded). -/
theorem eod_closure_accounting (store : OptionStore) (et : Nat) (eip : Option ℚ)
    (s s' : DayState σ) (h : eodClose store et eip s = .ok s') :
    s'.open_legs = s.open_legs ∧
    s'.trades.length + eodSkips s'.warnings =
      s.trades.length + eodSkips s.warnings + s.open_legs.length ∧
    (∀ tr ∈ s'.trades, tr ∈ s.trades ∨ (TradeP tr ∧ tr.exit_reason = "EOD")) := by
  unfold eodClose at h
  obtain ⟨h1, _h2, h3, h4⟩ := eodLoop_ok_account h
  exact ⟨h1, h3, h4⟩

/-- Concrete instance of `eod_closure_accounting`: one open leg, one EOD
trade appended, no skip, the leg still in the mapping. -/
theorem eod_closure_accounting_witness :
    exFinal.open_legs = exLoopEnd.open_legs ∧
    exFinal.trades.length + eodSkips exFinal.warnings =
      exLoopEnd.trades.length + eodSkips exLoopEnd.warnings + exLoopEnd.open_legs.length ∧
    (exEodTrade ∈ exLoopEnd.trades ∨ (TradeP exEodTrade ∧ exEodTrade.exit_reason = "EOD")) := by
  obtain ⟨h1, h2, h3⟩ :=
    eod_closure_accounting exStore 914 (some 101) exLoopEnd exFinal (by rfl)
  exact ⟨h1, h2, h3 exEodTrade (by simp [exFinal])⟩

/-- C1 counterexample: a full single-day run in which the EOD closure
records exactly one trade for the one open leg, yet the open-leg mapping
still holds that leg after the closure completes — the book is not empty
at day end. -/
theorem eod_open_leg_book_not_cleared :
    (runDayState exStore exIndex exStrat ()).map
        (fun s => (s.open_legs, s.trades.length)) =
      .ok ([(1, exLeg)], 1) := by
  rfl

/-! ### C4 — no-look-ahead entry semantics -/

/-- C4: an ENTER intent at a minute `t` other than the entry time is never
filled at `t`: processing it only queues it as a pending entry (the books,
trades and warnings are untouched).  An ENTER at the entry time fills
immediately at the Open of the candle the safe lookup locates for that
minute (with a fallback warning exactly when the match is approximate), and
a queued entry is resolved by `resolvePending` at the minute it is
processed, again at the located candle's Open. -/
theorem enter_no_lookahead :
    (∀ (store : OptionStore) (ET t : Nat) (ip : ℚ) (s : DayState σ) (e : EnterIntent),
        t ≠ ET →
        processAction store ET t ip s (.enter e) =
          .ok { s with pending_entries := s.pending_entries ++ [e] }) ∧
    (∀ (store : OptionStore) (ET : Nat) (ip : ℚ) (s : DayState σ) (e : EnterIntent)
        (df : Series) (c : Candle) (at_ : Nat),
        loadLeg store e.strike e.otype = .ok df →
        safe_get_candle df ET = some (c, at_, none) →
        processAction store ET ET ip s (.enter e) =
          .ok { s with open_legs := dictUpsert s.open_legs e.leg_id ⟨e, c.Open, at_⟩ }) ∧
    (∀ (store : OptionStore) (ET : Nat) (ip : ℚ) (s : DayState σ) (e : EnterIntent)
        (df : Series) (c : Candle) (at_ : Nat) (sw : SafeWarn),
        loadLeg store e.strike e.otype = .ok df →
        safe_get_candle df ET = some (c, at_, some sw) →
        processAction store ET ET ip s (.enter e) =
          .ok { s with
                warnings := s.warnings ++
                  [⟨.ENTRY, e.strike, e.otype, ET, some at_, .fallbackUsed sw.kind, none⟩],
                open_legs := dictUpsert s.open_legs e.leg_id ⟨e, c.Open, at_⟩ }) ∧
    (∀ (store : OptionStore) (t : Nat) (s : DayState σ) (e : EnterIntent)
        (df : Series) (c : Candle) (at_ : Nat),
        loadLeg store e.strike e.otype = .ok df →
        safe_get_candle df t = some (c, at_, none) →
        resolvePending store t s e =
          .ok { s with open_legs := dictUpsert s.open_legs e.leg_id ⟨e, c.Open, at_⟩ }) ∧
    (∀ (store : OptionStore) (t : Nat) (s : DayState σ) (e : EnterIntent)
        (df : Series) (c : Candle) (at_ : Nat) (sw : SafeWarn),
        loadLeg store e.strike e.otype = .ok df →
        safe_get_candle df t = some (c, at_, some sw) →
        resolvePending store t s e =
          .ok { s with
                warnings := s.warnings ++
                  [⟨.PENDING_ENTRY, e.strike, e.otype, t, some at_, .fallbackUsed sw.kind, none⟩],
                open_legs := dictUpsert s.open_legs e.leg_id ⟨e, c.Open, at_⟩ }) := by
  refine ⟨?_, ?_, ?_, ?_, ?_⟩
  · intro store ET t ip s e ht
    simp [processAction, ht]
  · intro store ET ip s e df c at_ hl hs
    simp [processAction, hl, hs]
  · intro store ET ip s e df c at_ sw hl hs
    simp [processAction, hl, hs]
  · intro store t s e df c at_ hl hs
    simp [resolvePending, hl, hs]
  · intro store t s e df c at_ sw hl hs
    simp [resolvePending, hl, hs]

/-- Concrete instances of `enter_no_lookahead`: an ENTER at 9:21 ≠ entry
time is queued; ENTERs at the entry time and pending resolutions fill at
the located candle's Open, exactly or with a fallback warning. -/
theorem enter_no_lookahead_witness :
    processAction exStore 560 561 (101 : ℚ) exS0 (.enter exE1) =
      .ok { exS0 with pending_entries := [exE1] } ∧
    processAction exStore 560 560 (100 : ℚ) exS0 (.enter exE1) =
      .ok { exS0 with open_legs := [(1, exLeg)] } ∧
    processAction exStore 562 562 (100 : ℚ) exS0 (.enter exE1) =
      .ok { exS0 with
            warnings := [⟨.ENTRY, 100, OType.CE, 562, some 561,
              .fallbackUsed .lastBefore, none⟩],
            open_legs := [(1, ⟨exE1, 9, 561⟩)] } ∧
    resolvePending exStore 560 exS0 exE1 =
      .ok { exS0 with open_legs := [(1, exLeg)] } ∧
    resolvePending exStore 562 exS0 exE1 =
      .ok { exS0 with
            warnings := [⟨.PENDING_ENTRY, 100, OType.CE, 562, some 561,
              .fallbackUsed .lastBefore, none⟩],
            open_legs := [(1, ⟨exE1, 9, 561⟩)] } := by
  refine ⟨?_, ?_, ?_, ?_, ?_⟩
  · exact enter_no_lookahead.1 exStore 560 561 101 exS0 exE1 (by decide)
  · exact enter_no_lookahead.2.1 exStore 560 100 exS0 exE1
      [(560, ⟨10, 12, 9, 8⟩), (561, ⟨9, 11, 8, 9⟩)] ⟨10, 12, 9, 8⟩ 560 (by rfl) (by decide)
  · exact enter_no_lookahead.2.2.1 exStore 562 100 exS0 exE1
      [(560, ⟨10, 12, 9, 8⟩), (561, ⟨9, 11, 8, 9⟩)] ⟨9, 11, 8, 9⟩ 561
      ⟨562, 561, .lastBefore⟩ (by rfl) (by decide)
  · exact enter_no_lookahead.2.2.2.1 exStore 560 exS0 exE1
      [(560, ⟨10, 12, 9, 8⟩), (561, ⟨9, 11, 8, 9⟩)] ⟨10, 12, 9, 8⟩ 560 (by rfl) (by decide)
  · exact enter_no_lookahead.2.2.2.2 exStore 562 exS0 exE1
      [(560, ⟨10, 12, 9, 8⟩), (561, ⟨9, 11, 8, 9⟩)] ⟨9, 11, 8, 9⟩ 561
      ⟨562, 561, .lastBefore⟩ (by rfl) (by decide)

/-! ### C5 — EXIT with unknown leg_id -/

/-- C5 (amended): an EXIT intent whose leg_id is not in the open-leg book
raises an uncaught KeyError: intent processing stops at that intent with
the error (the remaining intents are not processed and no error record is
written), and a failing minute step aborts the whole intraday loop with
the same error — the day's run fails rather than continuing. -/
theorem exit_unknown_leg_aborts_day :
    (∀ (store : OptionStore) (ET t : Nat) (ip : ℚ) (s : DayState σ) (lid : Nat)
        (reason : String) (rest : List Intent),
        dictGet? s.open_legs lid = none →
        processIntents store ET t ip s (.exitLeg lid reason :: rest) =
          .error (.keyError lid)) ∧
    (∀ (store : OptionStore) (strat : Strategy σ) (ts : Nat) (row : Candle)
        (rest : List (Nat × Candle)) (s : DayState σ) (err : EngineError),
        ts < strat.EXIT_TIME →
        stepMinute store strat s ts row = .error err →
        runLoop store strat ((ts, row) :: rest) s = .error err) := by
  constructor
  · intro store ET t ip s lid reason rest h
    simp [processIntents, processAction, h]
  · intro store strat ts row rest s err hts hsm
    have h' : ¬ strat.EXIT_TIME ≤ ts := by omega
    simp [runLoop, h', hsm]

/-- Concrete instances of `exit_unknown_leg_aborts_day`. -/
theorem exit_unknown_leg_aborts_day_witness :
    processIntents exStore 560 560 (100 : ℚ) exS0
        [Intent.exitLeg 99 "SL", Intent.enter exE1] = .error (.keyError 99) ∧
    runLoop exStore exStratBad [(560, ⟨100, 101, 99, 100⟩)] exS0 =
      .error (.keyError 99) := by
  constructor
  · exact exit_unknown_leg_aborts_day.1 exStore 560 560 100 exS0 99 "SL"
      [Intent.enter exE1] (by rfl)
  · exact exit_unknown_leg_aborts_day.2 exStore exStratBad 560 ⟨100, 101, 99, 100⟩
      [] exS0 (.keyError 99) (by decide) (by rfl)

/-- C5 counterexample: a concrete day in which the strategy's first intent
is an EXIT for an unknown leg_id: the whole run aborts with a KeyError —
it is not converted to an error record and the day does not continue. -/
theorem exit_unknown_leg_day_aborts_concrete :
    run_event_backtest_v2 exStore exIndex exStratBad () = .error (.keyError 99) := by
  rfl

/-! ### C9 — pending entry queued on the last processed minute -/

/-- C9: an ENTER intent away from the entry time only appends to the
pending-entry queue; the intraday loop stops (returning the state
unchanged) at the first minute at or past the exit time, so a pending
entry queued on the last processed minute is never resolved; and the
post-loop EOD output (trades and warnings) does not depend on the
pending-entry queue at all — the queued entry produces no leg, no trade
and no warning. -/
theorem pending_entry_last_minute_discarded :
    (∀ (store : OptionStore) (ET t : Nat) (ip : ℚ) (s : DayState σ) (e : EnterIntent),
        t ≠ ET →
        processAction store ET t ip s (.enter e) =
          .ok { s with pending_entries := s.pending_entries ++ [e] }) ∧
    (∀ (store : OptionStore) (strat : Strategy σ) (ts : Nat) (row : Candle)
        (rest : List (Nat × Candle)) (s : DayState σ),
        strat.EXIT_TIME ≤ ts →
        runLoop store strat ((ts, row) :: rest) s = .ok s) ∧
    (∀ (store : OptionStore) (et : Nat) (eip : Option ℚ) (s : DayState σ)
        (p : List EnterIntent),
        (eodClose store et eip { s with pending_entries := p }).map
            (fun u => (u.trades, u.warnings)) =
          (eodClose store et eip s).map (fun u => (u.trades, u.warnings))) := by
  refine ⟨?_, ?_, ?_⟩
  · intro store ET t ip s e ht
    simp [processAction, ht]
  · intro store strat ts row rest s hts
    simp [runLoop, hts]
  · intro store et eip s p
    unfold eodClose
    show (eodLoop store et eip { s with pending_entries := p } s.open_legs).map _ = _
    rw [eodLoop_pending_irrel]
    cases h : eodLoop store et eip s s.open_legs with
    | error err => simp [Except.map]
    | ok u => simp [Except.map]

/-- Concrete instances of `pending_entry_last_minute_discarded`. -/
theorem pending_entry_last_minute_discarded_witness :
    processAction exStore 560 914 (101 : ℚ) exLoopEnd (.enter ⟨2, 100, OType.PE⟩) =
      .ok { exLoopEnd with pending_entries := [⟨2, 100, OType.PE⟩] } ∧
    runLoop exStore exStrat [(915, ⟨100, 101, 99, 100⟩)]
        { exLoopEnd with pending_entries := [⟨2, 100, OType.PE⟩] } =
      .ok { exLoopEnd with pending_entries := [⟨2, 100, OType.PE⟩] } ∧
    (eodClose exStore 914 (some 101)
          { exLoopEnd with pending_entries := [⟨2, 100, OType.PE⟩] }).map
        (fun u => (u.trades, u.warnings)) =
      (eodClose exStore 914 (some 101) exLoopEnd).map
        (fun u => (u.trades, u.warnings)) := by
  refine ⟨?_, ?_, ?_⟩
  · exact pending_entry_last_minute_discarded.1 exStore 560 914 101 exLoopEnd
      ⟨2, 100, OType.PE⟩ (by decide)
  · exact pending_entry_last_minute_discarded.2.1 exStore exStrat 915
      ⟨100, 101, 99, 100⟩ [] { exLoopEnd with pending_entries := [⟨2, 100, OType.PE⟩] }
      (by decide)
  · exact pending_entry_last_minute_discarded.2.2 exStore 914 (some 101) exLoopEnd
      [⟨2, 100, OType.PE⟩]

/-! ### C10 — every engine trade is short with quantity −1 -/

/-- C10: every trade record a successful `run_event_backtest_v2` returns —
intraday exits and end-of-day exits alike, for any strategy — has quantity
−1 and PnL `(exit_price − entry_price) × (−1)`: the engine only ever emits
short legs. -/
theorem event_engine_trades_all_short (store : OptionStore)
    (index_df : List (Nat × Candle)) (strat : Strategy σ) (init : σ)
    (res : List Trade × List Warning)
    (h : run_event_backtest_v2 store index_df strat init = .ok res) :
    ∀ tr ∈ res.1, tr.qty = -1 ∧ tr.pnl = (tr.exit_price - tr.entry_price) * (-1) :=
  fun tr htr => run_ok_trades_inv h tr htr

/-- Concrete instance of `event_engine_trades_all_short` on the one-leg
exemplar day. -/
theorem event_engine_trades_all_short_witness :
    exEodTrade.qty = -1 ∧
    exEodTrade.pnl = (exEodTrade.exit_price - exEodTrade.entry_price) * (-1) :=
  event_engine_trades_all_short exStore exIndex exStrat ()
    ([exEodTrade], [exEodWarn]) (by rfl) exEodTrade (by simp)

end Engine

/-! ### C3 — realized-PnL convention in both engines -/

lemma Execution.execute_ok_qty_pnl {df : Series} {et xt : Nat} {sl_pct : ℚ}
    {qty : Int} {o : Execution.ExecResult}
    (h : Execution.execute_option_leg df et xt sl_pct qty = .ok o) :
    o.qty = qty ∧ o.pnl = (o.exit_price - o.entry_price) * qty := by
  unfold Execution.execute_option_leg at h
  dsimp only at h
  repeat' split at h
  all_goals
    first
      | (simp only [Except.ok.injEq] at h; subst h; exact ⟨rfl, rfl⟩)
      | exact Except.noConfusion h

/-- C3: for every closed leg, in both engines, PnL follows the side
convention `PnL = (exit − entry) × side` with side = −1 short, +1 long: the
leg execution engine returns `pnl = (exit − entry) × qty` (so
`entry − exit` for `qty = −1` and `exit − entry` for `qty = 1`), and every
trade of the event backtest engine (side −1 throughout) has
`PnL = entry − exit`, profiting when price falls. -/
theorem closed_leg_pnl_convention :
    (∀ (df : Series) (et xt : Nat) (sl_pct : ℚ) (qty : Int)
        (o : Execution.ExecResult),
        qty = -1 ∨ qty = 1 →
        Execution.execute_option_leg df et xt sl_pct qty = .ok o →
        o.qty = qty ∧ o.pnl = (o.exit_price - o.entry_price) * qty ∧
        (qty = -1 → o.pnl = o.entry_price - o.exit_price) ∧
        (qty = 1 → o.pnl = o.exit_price - o.entry_price)) ∧
    (∀ {σ : Type} (store : Engine.OptionStore) (index_df : List (Nat × Candle))
        (strat : Engine.Strategy σ) (init : σ)
        (res : List Engine.Trade × List Engine.Warning),
        Engine.run_event_backtest_v2 store index_df strat init = .ok res →
        ∀ tr ∈ res.1, tr.qty = -1 ∧ tr.pnl = tr.entry_price - tr.exit_price) := by
  constructor
  · intro df et xt sl_pct qty o _hq h
    obtain ⟨h1, h2⟩ := Execution.execute_ok_qty_pnl h
    refine ⟨h1, h2, ?_, ?_⟩
    · rintro rfl
      rw [h2]
      ring
    · rintro rfl
      rw [h2]
      ring
  · intro σ store index_df strat init res h tr htr
    obtain ⟨h1, h2⟩ := Engine.run_ok_trades_inv h tr htr
    refine ⟨h1, ?_⟩
    rw [h2]
    ring

/-- Concrete instances of `closed_leg_pnl_convention`: the execution engine
on a short leg stopped out at 150 from entry 100 (PnL −50 = 100 − 150), and
the event engine's EOD trade (entry 10, exit 9, PnL 1 = 10 − 9). -/
theorem closed_leg_pnl_convention_witness :
    ((⟨560, 100, false, 0, 561, 150, .SL_HIT, 140, -1, -50⟩ :
        Execution.ExecResult).qty = -1 ∧
      (⟨560, 100, false, 0, 561, 150, .SL_HIT, 140, -1, -50⟩ :
        Execution.ExecResult).pnl = ((150 : ℚ) - 100) * (-1) ∧
      ((-1 : Int) = -1 → (⟨560, 100, false, 0, 561, 150, .SL_HIT, 140, -1, -50⟩ :
        Execution.ExecResult).pnl = (100 : ℚ) - 150) ∧
      ((-1 : Int) = 1 → (⟨560, 100, false, 0, 561, 150, .SL_HIT, 140, -1, -50⟩ :
        Execution.ExecResult).pnl = (150 : ℚ) - 100)) ∧
    (Engine.exEodTrade.qty = -1 ∧
      Engine.exEodTrade.pnl = Engine.exEodTrade.entry_price - Engine.exEodTrade.exit_price) := by
  constructor
  · exact closed_leg_pnl_convention.1
      [(560, ⟨100, 105, 95, 101⟩), (561, ⟨101, 150, 100, 102⟩), (601, ⟨102, 103, 101, 103⟩)]
      560 600 (2/5) (-1) ⟨560, 100, false, 0, 561, 150, .SL_HIT, 140, -1, -50⟩
      (Or.inl rfl) (by rfl)
  · exact closed_leg_pnl_convention.2 Engine.exStore Engine.exIndex Engine.exStrat ()
      ([Engine.exEodTrade], [Engine.exEodWarn]) (by rfl) Engine.exEodTrade (by simp)

/-! ### C7 — partition order and data-not-found semantics of the reader -/

namespace OptionsReader

/-- The rows a (year, month) partition yields for the trade date: `none` if
the partition is missing or has no rows for the date, else the filtered
rows. -/
def partitionRows (store : PartitionStore) (trade_date : Date) (ym : Nat × Nat) :
    Option (List OptRow) :=
  match store ym with
  | none => none
  | some rows =>
    let table := rows.filter (fun r => r.date = trade_date)
    if table.isEmpty then none else some table

lemma tryMonths_eq_findSome? (store : PartitionStore) (td : Date) :
    ∀ l : List (Nat × Nat),
      tryMonths store td l = l.findSome? (partitionRows store td) := by
  intro l
  induction l with
  | nil => rfl
  | cons ym rest ih =>
    cases h : store ym with
    | none => simp [tryMonths, List.findSome?_cons, partitionRows, h, ih]
    | some rows =>
      by_cases he : (rows.filter (fun r => r.date = td)).isEmpty
      · simp [tryMonths, List.findSome?_cons, partitionRows, h, he, ih]
      · simp [tryMonths, List.findSome?_cons, partitionRows, h, he]

/-- C7: the loader tries the partition keyed by the expiry's own
year/month first — if it yields rows for the trade date they are returned
and the trade-month partition is not consulted; only if it yields none is
the result that of the trade-date-month partition; a load with no rows
from any tried partition fails with the data-not-found error; and
filtering a loaded expiry series by (strike, option type) fails with a
data-not-found error exactly when the filtered series is empty. -/
theorem load_option_data_partition_order :
    (∀ (store : PartitionStore) (td ed : Date) (res : List OptRow),
        partitionRows store td (ed.year, ed.month) = some res →
        load_expiry_data store td ed = some res) ∧
    (∀ (store : PartitionStore) (td ed : Date),
        partitionRows store td (ed.year, ed.month) = none →
        load_expiry_data store td ed = partitionRows store td (td.year, td.month)) ∧
    (∀ (store : PartitionStore) (td ed : Date) (strike : Int) (ot : OType),
        load_expiry_data store td ed = none →
        load_option_data store td ed strike ot = .error (.noExpiryData td ed)) ∧
    (∀ (store : PartitionStore) (td ed : Date) (strike : Int) (ot : OType)
        (edf : List OptRow),
        load_expiry_data store td ed = some edf →
        (load_option_data store td ed strike ot = .error (.noLegData td ot strike ed) ↔
          edf.filter (fun r => r.StrikePrice = strike ∧ r.Type' = ot) = []) ∧
        (edf.filter (fun r => r.StrikePrice = strike ∧ r.Type' = ot) ≠ [] →
          load_option_data store td ed strike ot =
            .ok (edf.filter (fun r => r.StrikePrice = strike ∧ r.Type' = ot)))) := by
  refine ⟨?_, ?_, ?_, ?_⟩
  · intro store td ed res h
    unfold load_expiry_data months_to_try
    rw [tryMonths_eq_findSome?]
    by_cases hm : td.year = ed.year ∧ td.month = ed.month
    · simp [List.mem_singleton, Prod.mk.injEq, hm, List.findSome?_cons, h]
    · simp [List.mem_singleton, Prod.mk.injEq, hm, List.findSome?_cons, h]
  · intro store td ed h
    unfold load_expiry_data months_to_try
    rw [tryMonths_eq_findSome?]
    by_cases hm : td.year = ed.year ∧ td.month = ed.month
    · obtain ⟨h1, h2⟩ := hm
      simp [List.mem_singleton, Prod.mk.injEq, h1, h2, List.findSome?_cons, h]
    · simp [List.mem_singleton, Prod.mk.injEq, hm, List.findSome?_cons, h]
      rcases hx : partitionRows store td (td.year, td.month) with _ | v <;> simp [hx]
  · intro store td ed strike ot h
    unfold load_option_data
    simp [h]
  · intro store td ed strike ot edf h
    unfold load_option_data
    simp only [h]
    by_cases hnil : edf.filter (fun r => r.StrikePrice = strike ∧ r.Type' = ot) = []
    · have he : (edf.filter (fun r => r.StrikePrice = strike ∧ r.Type' = ot)).isEmpty = true := by
        rw [hnil]; rfl
      rw [if_pos he]
      exact ⟨⟨fun _ => hnil, fun _ => rfl⟩, fun hne => absurd hnil hne⟩
    · have he : ¬ (edf.filter (fun r => r.StrikePrice = strike ∧ r.Type' = ot)).isEmpty = true :=
        fun hE => hnil (List.isEmpty_iff.mp hE)
      rw [if_neg he]
      refine ⟨⟨fun hc => ?_, fun hn => absurd hn hnil⟩, fun _ => rfl⟩
      exact Except.noConfusion hc

/-- A trade date, a cross-month expiry, and a matching data row. -/
def exTd : Date := ⟨2023, 8, 10⟩

/-- Example expiry date in the month after the trade date. -/
def exEd : Date := ⟨2023, 9, 1⟩

/-- A row for the trade date. -/
def exRow : OptRow := ⟨⟨2023, 8, 10⟩, 100, OType.CE⟩

/-- A row for another trade date in the same partition. -/
def exRowOther : OptRow := ⟨⟨2023, 8, 9⟩, 100, OType.CE⟩

/-- A store whose only partition is the expiry's month. -/
def exPStoreExpiryMonth : PartitionStore :=
  fun ym => if ym = (2023, 9) then some [exRow, exRowOther] else none

/-- A store whose only partition is the trade date's month. -/
def exPStoreTradeMonth : PartitionStore :=
  fun ym => if ym = (2023, 8) then some [exRow] else none

/-- A store with no partitions at all. -/
def exPStoreNone : PartitionStore := fun _ => none

/-- Concrete instances of `load_option_data_partition_order`: the expiry
month wins when it yields rows; the trade month is the fallback; no rows
anywhere is DataNotFound; and leg filtering errors exactly on an empty
filter. -/
theorem load_option_data_partition_order_witness :
    load_expiry_data exPStoreExpiryMonth exTd exEd = some [exRow] ∧
    load_expiry_data exPStoreTradeMonth exTd exEd =
      partitionRows exPStoreTradeMonth exTd (2023, 8) ∧
    load_option_data exPStoreNone exTd exEd 100 OType.CE =
      .error (.noExpiryData exTd exEd) ∧
    load_option_data exPStoreTradeMonth exTd exEd 200 OType.PE =
      .error (.noLegData exTd OType.PE 200 exEd) ∧
    load_option_data exPStoreTradeMonth exTd exEd 100 OType.CE = .ok [exRow] := by
  refine ⟨?_, ?_, ?_, ?_, ?_⟩
  · exact load_option_data_partition_order.1 exPStoreExpiryMonth exTd exEd [exRow] (by rfl)
  · exact load_option_data_partition_order.2.1 exPStoreTradeMonth exTd exEd (by rfl)
  · exact load_option_data_partition_order.2.2.1 exPStoreNone exTd exEd 100 OType.CE (by rfl)
  · exact ((load_option_data_partition_order.2.2.2 exPStoreTradeMonth exTd exEd 200
        OType.PE [exRow] (by rfl)).1).mpr (by rfl)
  · exact (load_option_data_partition_order.2.2.2 exPStoreTradeMonth exTd exEd 100
        OType.CE [exRow] (by rfl)).2 (by decide)

end OptionsReader

/-! ### C8 — minute PnL snapshots: emit-or-skip and the recorded value -/

namespace Tracker

/-- The mark-to-market sum `Σ (entry_price − current close)` over the open
legs (the close defaulting to 0 is never used when every leg resolves). -/
def mtm (closes : Int → OType → Nat → Option ℚ) (candle_time : Nat)
    (open_legs : List (Nat × Engine.OpenLeg)) : ℚ :=
  (open_legs.map (fun kv =>
    kv.2.entry_price - (closes kv.2.meta.strike kv.2.meta.otype candle_time).getD 0)).sum

/-- The open legs whose close price at the minute is unresolvable. -/
def missingLegs (closes : Int → OType → Nat → Option ℚ) (candle_time : Nat)
    (open_legs : List (Nat × Engine.OpenLeg)) : List (Nat × Engine.OpenLeg) :=
  open_legs.filter (fun kv =>
    (closes kv.2.meta.strike kv.2.meta.otype candle_time).isNone)

lemma scanLegs_issues (closes : Int → OType → Nat → Option ℚ) (candle_time : Nat) :
    ∀ open_legs : List (Nat × Engine.OpenLeg),
      (scanLegs closes candle_time open_legs).2 =
        (missingLegs closes candle_time open_legs).map
          (fun kv => ⟨candle_time, kv.1, kv.2.meta.strike, kv.2.meta.otype⟩) := by
  intro open_legs
  induction open_legs with
  | nil => rfl
  | cons kv rest ih =>
    cases hc : closes kv.2.meta.strike kv.2.meta.otype candle_time with
    | none => simp [scanLegs, get_close_at_time, missingLegs, hc, ih, List.filter_cons]
    | some c => simp [scanLegs, get_close_at_time, missingLegs, hc, ih, List.filter_cons]

lemma scanLegs_mtm (closes : Int → OType → Nat → Option ℚ) (candle_time : Nat) :
    ∀ open_legs : List (Nat × Engine.OpenLeg),
      (∀ kv ∈ open_legs, closes kv.2.meta.strike kv.2.meta.otype candle_time ≠ none) →
      (scanLegs closes candle_time open_legs).1 = mtm closes candle_time open_legs := by
  intro open_legs
  induction open_legs with
  | nil => intro _; rfl
  | cons kv rest ih =>
    intro hall
    cases hc : closes kv.2.meta.strike kv.2.meta.otype candle_time with
    | none => exact absurd hc (hall kv (List.mem_cons_self kv rest))
    | some c =>
      have := ih (fun kv' hkv' => hall kv' (List.mem_cons_of_mem kv hkv'))
      simp [scanLegs, get_close_at_time, mtm, hc, this]

/-- C8 (amended): at a minute where every open leg's close resolves,
`record` appends exactly one PnL row, whose value is
`round(realized + Σ (entry − close), 4)` — the snapshot value rounded to 4
decimal places — and leaves the issues untouched; at a minute where any
leg's close is unresolvable, `record` appends no PnL row and instead
appends one issue row per missing leg. -/
theorem record_emits_or_skips :
    (∀ (closes : Int → OType → Nat → Option ℚ) (candle_time : Nat)
        (open_legs : List (Nat × Engine.OpenLeg)) (st : TrackerState),
        (∀ kv ∈ open_legs, closes kv.2.meta.strike kv.2.meta.otype candle_time ≠ none) →
        record closes candle_time open_legs st =
          { st with pnl_rows := st.pnl_rows ++
              [⟨candle_time, round4 (st.realized_pnl + mtm closes candle_time open_legs)⟩] }) ∧
    (∀ (closes : Int → OType → Nat → Option ℚ) (candle_time : Nat)
        (open_legs : List (Nat × Engine.OpenLeg)) (st : TrackerState)
        (kv : Nat × Engine.OpenLeg),
        kv ∈ open_legs → closes kv.2.meta.strike kv.2.meta.otype candle_time = none →
        (record closes candle_time open_legs st).pnl_rows = st.pnl_rows ∧
        (record closes candle_time open_legs st).issue_rows = st.issue_rows ++
          (missingLegs closes candle_time open_legs).map
            (fun kv => ⟨candle_time, kv.1, kv.2.meta.strike, kv.2.meta.otype⟩)) := by
  constructor
  · intro closes candle_time open_legs st hall
    have hmiss : missingLegs closes candle_time open_legs = [] := by
      refine List.filter_eq_nil_iff.mpr ?_
      intro kv hkv
      simpa using hall kv hkv
    have hissues := scanLegs_issues closes candle_time open_legs
    rw [hmiss] at hissues
    simp only [List.map_nil] at hissues
    unfold record
    dsimp only
    rw [hissues]
    simp [scanLegs_mtm closes candle_time open_legs hall]
  · intro closes candle_time open_legs st kv hkv hnone
    have hissues := scanLegs_issues closes candle_time open_legs
    have hne : (scanLegs closes candle_time open_legs).2 ≠ [] := by
      rw [hissues]
      simp only [ne_eq, List.map_eq_nil_iff, missingLegs, List.filter_eq_nil_iff]
      push_neg
      exact ⟨kv, hkv, by simp [hnone]⟩
    unfold record
    dsimp only
    rw [if_neg (fun hE : (scanLegs closes candle_time open_legs).2.isEmpty = true =>
      hne (List.isEmpty_iff.mp hE))]
    exact ⟨rfl, by rw [hissues]⟩

/-- An open leg whose entry price has more than 4 decimal places. -/
def exTrLeg : Engine.OpenLeg := ⟨⟨1, 100, OType.CE⟩, 10000001/100000, 560⟩

/-- Concrete instances of `record_emits_or_skips`: one resolvable leg
yields exactly one rounded PnL row; one unresolvable leg yields no PnL row
and one issue row. -/
theorem record_emits_or_skips_witness :
    record (fun _ _ _ => some 100) 560 [(1, exTrLeg)] ⟨[], [], 0⟩ =
      { pnl_rows := [⟨560, round4 ((0 : ℚ) + mtm (fun _ _ _ => some 100) 560 [(1, exTrLeg)])⟩],
        issue_rows := [], realized_pnl := 0 } ∧
    (record (fun _ _ _ => none) 560 [(1, exTrLeg)] ⟨[], [], 0⟩).pnl_rows = [] ∧
    (record (fun _ _ _ => none) 560 [(1, exTrLeg)] ⟨[], [], 0⟩).issue_rows =
      [] ++ (missingLegs (fun _ _ _ => none) 560 [(1, exTrLeg)]).map
        (fun kv => ⟨560, kv.1, kv.2.meta.strike, kv.2.meta.otype⟩) := by
  refine ⟨?_, ?_, ?_⟩
  · exact record_emits_or_skips.1 (fun _ _ _ => some 100) 560 [(1, exTrLeg)]
      ⟨[], [], 0⟩ (by intro kv _; simp)
  · exact (record_emits_or_skips.2 (fun _ _ _ => none) 560 [(1, exTrLeg)]
      ⟨[], [], 0⟩ (1, exTrLeg) (by simp) rfl).1
  · exact (record_emits_or_skips.2 (fun _ _ _ => none) 560 [(1, exTrLeg)]
      ⟨[], [], 0⟩ (1, exTrLeg) (by simp) rfl).2

/-- C8 counterexample: with realized PnL 0 and one open leg with entry
price 100.00001 whose close resolves to 100, the snapshot value is
1/100000, but the emitted row's value is `round(1/100000, 4) = 0`: the
recorded PnL is the rounded snapshot, not the exact sum the claim states. -/
theorem record_value_is_rounded :
    (record (fun _ _ _ => some 100) 560 [(1, exTrLeg)] ⟨[], [], 0⟩).pnl_rows =
      [⟨560, 0⟩] ∧
    (0 : ℚ) + ((10000001 : ℚ)/100000 - 100) = 1/100000 ∧ (0 : ℚ) ≠ 1/100000 := by
  refine ⟨by rfl, by decide, by decide⟩

end Tracker

end Backtest
